import Mathlib

/-!
Shallow embedding of the Wikifeat page/comment management core
(`wikis/wiki_service/pages_manager.go`) and proofs of the spec's
testable properties about it.

The document store (the `wikit` adapter), the wiki-record manager and the
role utilities are external collaborators of this file's code; they are
modelled as an oracle environment of functions, and every manager operation
additionally returns the ordered list of store operations it issued, so
that claims about "no write was issued" or "the update precedes the delete"
are statable.
-/

namespace Wikifeat

/-- Page/comment body: `Raw` is the author-supplied Markdown, `Formatted`
the derived sanitized HTML (`wikit` content struct, used by
`pages_manager.go`). -/
structure PageContent where
  raw : String
  formatted : String
deriving DecidableEq

/-- The fields of `wikit.Page` that `pages_manager.go` reads or writes:
`Title`, `Lineage`, `OwningPage` and `Content`. -/
structure Page where
  title : String
  lineage : List String
  owningPage : String
  content : PageContent
deriving DecidableEq

/-- The fields of `wikit.Comment` used by `pages_manager.go`:
`Author` and `Content`. -/
structure Comment where
  author : String
  content : PageContent
deriving DecidableEq

/-- The field of `WikiRecord` used by `PageManager.Delete`. -/
structure WikiRecord where
  homePageId : String
deriving DecidableEq

/-- The principal's `User` object: `UserName` and `Roles`. -/
structure User where
  userName : String
  roles : List String
deriving DecidableEq

/-- `CurrentUserInfo`: authentication credential plus the `User` object. -/
structure CurrentUserInfo where
  auth : String
  user : User
deriving DecidableEq

/-- One row of a `wikit.MultiPageResponse` (an `Id` and the page document). -/
structure MultiPageRow where
  id : String
  doc : Page
deriving DecidableEq

/-- One row of the `WikiSlugViewResponse` returned by the
`wiki_query/getWikiBySlug` view: the concrete wiki id. -/
structure SlugRow where
  id : String
deriving DecidableEq

/-- Error taxonomy of spec section 7.  `badRequest` models
`BadRequestError()`, `notFound` models `NotFoundError()`, `notAuthorized`
models the literal error `[Error]:403: Not Authorized` built with
`errors.New` in `pages_manager.go`; `storeFailure` stands for any other
error value coming back from the store layer. -/
inductive Err where
  | badRequest
  | notFound
  | notAuthorized
  | conflict
  | storeFailure (msg : String)
deriving DecidableEq

/-- The store operations `pages_manager.go` can issue, recorded in
execution order.  The first `String` argument of the per-wiki operations is
the database name produced by `wikiDbString`. -/
inductive StoreOp where
  | readPage (db pageId : String)
  | readMultiplePages (db : String) (ids : List String)
  | savePage (db : String) (page : Page) (pageId pageRev userName : String)
  | deletePage (db pageId pageRev : String)
  | readWikiRecord (wiki : String)
  | updateWikiRecord (wiki wRev : String) (wr : WikiRecord)
  | getView (db view viewFn key : String)
  | readPageBySlug (db pageSlug : String)
  | readComment (db commentId : String)
  | saveComment (db : String) (c : Comment) (commentId commentRev pageId userName : String)
  | deleteComment (db commentId commentRev : String)
deriving DecidableEq

/-- Whether a store operation writes (mutates) the store. -/
def StoreOp.isWrite : StoreOp → Bool
  | .savePage _ _ _ _ _ => true
  | .deletePage _ _ _ => true
  | .updateWikiRecord _ _ _ => true
  | .saveComment _ _ _ _ _ _ => true
  | .deleteComment _ _ _ => true
  | _ => false

/-- Whether a store operation is a comment fetch (the authorization gate's
only store access). -/
def StoreOp.isReadComment : StoreOp → Bool
  | .readComment _ _ => true
  | _ => false

/-- Oracle for the external document store / wiki-record manager: one
function per collaborator call that `pages_manager.go` makes, giving the
result the store would return.  `readPage`, `readPageBySlug` and
`readComment` return the revision together with the fetched document
(the Go versions fill an out-parameter and return the revision). -/
structure StoreEnv where
  readPage : String → String → Except Err (String × Page)
  readMultiplePages : String → List String → Except Err (List MultiPageRow)
  savePage : String → Page → String → String → String → Except Err String
  deletePage : String → String → String → Except Err String
  readWikiRecord : String → Except Err (String × WikiRecord)
  updateWikiRecord : String → String → WikiRecord → Except Err String
  getWikiBySlug : String → Except Err (List SlugRow)
  readPageBySlug : String → String → Except Err (String × Page)
  readComment : String → String → Except Err (String × Comment)
  saveComment : String → Comment → String → String → String → String → Except Err String
  deleteComment : String → String → String → Except Err String

/-- `wikiDbString` from `pages_manager.go`: maps a wiki id to its store
namespace. -/
def wikiDbString (wikiId : String) : String :=
  "wiki_" ++ wikiId

/-- Modelled from the spec: `MainDbName()` from wikifeat-common (not under
src), the name of the system's single global/main store namespace.  Kept as
an opaque-in-spirit constant string. -/
def MainDbName : String :=
  "wikifeat_main_db"

/-- Modelled from the spec: `util.HasRole` from wikifeat-common (not under
src); spec section 6: `hasRole(roles, roleName) -> bool` is role-list
membership. -/
def hasRole (roles : List String) (role : String) : Bool :=
  roles.contains role

/-- Modelled from the spec: `AdminRole(dbName)` from wikifeat-common (not
under src), the admin role scoped to a namespace. -/
def AdminRole (dbName : String) : String :=
  "admin_" ++ dbName

/-- Modelled from the spec: `MasterRole()` from wikifeat-common (not under
src), the global master role. -/
def MasterRole : String :=
  "master"

/-- Oracle for the external Markdown libraries used by `processMarkdown`:
`parseFaults mdText` says whether `commonmark.ParseDocument(mdText, 0)`
panics on this input; `render mdText` is the outcome of calling
`RenderHtml` on the document parsed from `mdText` (`none` models a panic
inside rendering); `sanitize` is `bluemonday`'s `p.Sanitize` under the
fixed policy of `getSanitizerPolicy`. -/
structure MarkdownEnv where
  parseFaults : String → Bool
  render : String → Option String
  sanitize : String → String

/-- Whether the parse-or-render stage of `processMarkdown` faults
(panics) on this input. -/
def MarkdownEnv.faults (menv : MarkdownEnv) (mdText : String) : Bool :=
  menv.parseFaults mdText || (menv.render mdText).isNone

/-- Result of one `processMarkdown` execution: the single string sent on
the `out` channel, and whether `document.Free()` was invoked during the
execution. -/
structure MdResult where
  output : String
  freedDocument : Bool
deriving DecidableEq

/-- `processMarkdown` from `pages_manager.go`.  The deferred `recover`
turns any panic into sending `""` on the channel, so the function is total
and always delivers exactly one string.  `document.Free()` sits between
`RenderHtml` and the channel send on the normal path and is not deferred:
if `ParseDocument` panics no document exists, and if `RenderHtml` panics
control jumps to the recover handler before `Free` runs, so
`freedDocument` is `true` only on the fully successful path. -/
def processMarkdown (menv : MarkdownEnv) (mdText : String) : MdResult :=
  if menv.parseFaults mdText then
    { output := "", freedDocument := false }
  else
    match menv.render mdText with
    | none => { output := "", freedDocument := false }
    | some htmlString => { output := menv.sanitize htmlString, freedDocument := true }

/-- Replace a page's `Content.Formatted` (the assignment
`page.Content.Formatted = <-out` in `PageManager.Save`). -/
def Page.withFormatted (page : Page) (formatted : String) : Page :=
  { page with content := { page.content with formatted := formatted } }

/-- Replace a comment's `Content.Formatted` (the assignment
`comment.Content.Formatted = <-out` in `PageManager.SaveComment`). -/
def Comment.withFormatted (comment : Comment) (formatted : String) : Comment :=
  { comment with content := { comment.content with formatted := formatted } }

/-- `PageManager.Save`: render the raw Markdown (one blocking handoff from
the render task), store the formatted result into the page, then issue the
store's `SavePage`. -/
def PageManager.Save (env : StoreEnv) (menv : MarkdownEnv) (wiki : String) (page : Page)
    (pageId pageRev : String) (curUser : CurrentUserInfo) :
    Except Err String × List StoreOp :=
  let db := wikiDbString wiki
  let page' := page.withFormatted (processMarkdown menv page.content.raw).output
  (env.savePage db page' pageId pageRev curUser.user.userName,
   [StoreOp.savePage db page' pageId pageRev curUser.user.userName])

/-- `PageManager.Read`: fetch the page from the wiki's store. -/
def PageManager.Read (env : StoreEnv) (wiki pageId : String)
    (curUser : CurrentUserInfo) : Except Err (String × Page) × List StoreOp :=
  let db := wikiDbString wiki
  (env.readPage db pageId, [StoreOp.readPage db pageId])

/-- The derived breadcrumb row: `Breadcrumb{Name, PageId, WikiId, Parent}`. -/
structure Breadcrumb where
  name : String
  pageId : String
  wikiId : String
  parent : String
deriving DecidableEq

/-- The per-row parent computation inside the `GetBreadcrumbs` loop:
`lineage[len-2]` when the row's own lineage has at least two entries,
otherwise the empty string. -/
def parentEntry (lineage : List String) : String :=
  if lineage.length ≥ 2 then lineage.getD (lineage.length - 2) "" else ""

/-- The loop body of `GetBreadcrumbs`: build one `Breadcrumb` from a
`MultiPageRow`. -/
def breadcrumbOfRow (wiki : String) (row : MultiPageRow) : Breadcrumb :=
  { name := row.doc.title
    pageId := row.id
    wikiId := wiki
    parent := parentEntry row.doc.lineage }

/-- `PageManager.GetBreadcrumbs`: read the page; when its lineage has more
than one entry, bulk-fetch `Lineage[0 : len-1]` (every ancestor except the
lineage's last entry); append the current page as the final row; map the
loop body over all rows. -/
def PageManager.GetBreadcrumbs (env : StoreEnv) (wiki pageId : String)
    (curUser : CurrentUserInfo) : Except Err (List Breadcrumb) × List StoreOp :=
  let db := wikiDbString wiki
  match PageManager.Read env wiki pageId curUser with
  | (.error err, readOps) => (.error err, readOps)
  | (.ok (_, thePage), readOps) =>
    let szLineage := thePage.lineage.length
    if szLineage > 1 then
      let lineage := thePage.lineage.take (szLineage - 1)
      match env.readMultiplePages db lineage with
      | .error err => (.error err, readOps ++ [StoreOp.readMultiplePages db lineage])
      | .ok responseRows =>
        let rows := responseRows ++ [MultiPageRow.mk pageId thePage]
        (.ok (rows.map (breadcrumbOfRow wiki)),
         readOps ++ [StoreOp.readMultiplePages db lineage])
    else
      let rows := [MultiPageRow.mk pageId thePage]
      (.ok (rows.map (breadcrumbOfRow wiki)), readOps)

/-- `PageManager.Delete`: read the page; a record whose `OwningPage`
differs from `pageId` is a historical revision and yields `BadRequest`;
then read the wiki record, and when the page is the wiki's home page clear
`HomePageId` via an update before issuing the page delete; an update
failure aborts the delete. -/
def PageManager.Delete (env : StoreEnv) (wiki pageId pageRev : String)
    (curUser : CurrentUserInfo) : Except Err String × List StoreOp :=
  let db := wikiDbString wiki
  match env.readPage db pageId with
  | .error err => (.error err, [StoreOp.readPage db pageId])
  | .ok (_, thePage) =>
    if thePage.owningPage ≠ pageId then
      (.error .badRequest, [StoreOp.readPage db pageId])
    else
      match env.readWikiRecord wiki with
      | .error err => (.error err, [StoreOp.readPage db pageId, StoreOp.readWikiRecord wiki])
      | .ok (wRev, wr) =>
        if wr.homePageId = pageId then
          let wr' : WikiRecord := { wr with homePageId := "" }
          match env.updateWikiRecord wiki wRev wr' with
          | .error err =>
            (.error err,
             [StoreOp.readPage db pageId, StoreOp.readWikiRecord wiki,
              StoreOp.updateWikiRecord wiki wRev wr'])
          | .ok _ =>
            (env.deletePage db pageId pageRev,
             [StoreOp.readPage db pageId, StoreOp.readWikiRecord wiki,
              StoreOp.updateWikiRecord wiki wRev wr',
              StoreOp.deletePage db pageId pageRev])
        else
          (env.deletePage db pageId pageRev,
           [StoreOp.readPage db pageId, StoreOp.readWikiRecord wiki,
            StoreOp.deletePage db pageId pageRev])

/-- `PageManager.ReadBySlug`: resolve the wiki slug through the global
`wiki_query/getWikiBySlug` view on the main database; with no matching row
the call is `NotFound`; otherwise resolve the page slug inside the first
row's wiki and return that wiki id together with the page store's result
verbatim. -/
def PageManager.ReadBySlug (env : StoreEnv) (wikiSlug pageSlug : String)
    (curUser : CurrentUserInfo) :
    (String × Except Err (String × Page)) × List StoreOp :=
  let viewOp := StoreOp.getView MainDbName "wiki_query" "getWikiBySlug" wikiSlug
  match env.getWikiBySlug wikiSlug with
  | .error err => (("", .error err), [viewOp])
  | .ok [] => (("", .error .notFound), [viewOp])
  | .ok (row :: _) =>
    let wikiId := row.id
    let db := wikiDbString wikiId
    ((wikiId, env.readPageBySlug db pageSlug),
     [viewOp, StoreOp.readPageBySlug db pageSlug])

/-- `PageManager.allowedToUpdateComment`: fetch the comment (any failure
denies); approve the comment's author and holders of the wiki-scoped admin
role, the main-namespace admin role or the master role; deny everyone
else. -/
def PageManager.allowedToUpdateComment (env : StoreEnv) (wiki commentId : String)
    (curUser : CurrentUserInfo) : Bool × List StoreOp :=
  let userName := curUser.user.userName
  let userRoles := curUser.user.roles
  let db := wikiDbString wiki
  match env.readComment db commentId with
  | .error _ => (false, [StoreOp.readComment db commentId])
  | .ok (_, comment) =>
    let isAdmin := hasRole userRoles (AdminRole wiki) ||
      hasRole userRoles (AdminRole MainDbName) ||
      hasRole userRoles MasterRole
    (comment.author = userName || isAdmin, [StoreOp.readComment db commentId])

/-- `PageManager.SaveComment`: when `commentRev` is non-empty the
authorization gate must approve, else the call fails with the
`[Error]:403: Not Authorized` error before anything further happens;
otherwise render the raw Markdown into `Content.Formatted` and issue the
store's `SaveComment`. -/
def PageManager.SaveComment (env : StoreEnv) (menv : MarkdownEnv) (wiki pageId : String)
    (comment : Comment) (commentId commentRev : String) (curUser : CurrentUserInfo) :
    Except Err String × List StoreOp :=
  let db := wikiDbString wiki
  let comment' := comment.withFormatted (processMarkdown menv comment.content.raw).output
  let storeResult := env.saveComment db comment' commentId commentRev pageId curUser.user.userName
  let storeOp := StoreOp.saveComment db comment' commentId commentRev pageId curUser.user.userName
  if commentRev ≠ "" then
    match PageManager.allowedToUpdateComment env wiki commentId curUser with
    | (false, gateOps) => (.error .notAuthorized, gateOps)
    | (true, gateOps) => (storeResult, gateOps ++ [storeOp])
  else
    (storeResult, [storeOp])

/-- `PageManager.ReadComment`: fetch the comment from the wiki's store. -/
def PageManager.ReadComment (env : StoreEnv) (wiki commentId : String)
    (curUser : CurrentUserInfo) : Except Err (String × Comment) × List StoreOp :=
  let db := wikiDbString wiki
  (env.readComment db commentId, [StoreOp.readComment db commentId])

/-- `PageManager.DeleteComment`: gate approval required; on approval
re-read the comment for its current revision, then delete; a denial fails
with the `[Error]:403: Not Authorized` error without touching the store. -/
def PageManager.DeleteComment (env : StoreEnv) (wiki commentId : String)
    (curUser : CurrentUserInfo) : Except Err String × List StoreOp :=
  let db := wikiDbString wiki
  match PageManager.allowedToUpdateComment env wiki commentId curUser with
  | (true, gateOps) =>
    match PageManager.ReadComment env wiki commentId curUser with
    | (.error err, readOps) => (.error err, gateOps ++ readOps)
    | (.ok (commentRev, _), readOps) =>
      (env.deleteComment db commentId commentRev,
       gateOps ++ readOps ++ [StoreOp.deleteComment db commentId commentRev])
  | (false, gateOps) => (.error .notAuthorized, gateOps)

/-- A faulting render: `processMarkdown` recovers, sends the empty string,
and never reaches `document.Free()`. -/
theorem processMarkdown_eq_of_fault (menv : MarkdownEnv) (s : String)
    (h : menv.faults s = true) :
    processMarkdown menv s = { output := "", freedDocument := false } := by
  unfold processMarkdown
  by_cases hp : menv.parseFaults s
  · simp [hp]
  · have hr : menv.render s = none := by
      unfold MarkdownEnv.faults at h
      simp only [hp, Bool.false_or] at h
      exact Option.isNone_iff_eq_none.mp h
    simp [hp, hr]

/-- C1: an internal parser fault while rendering a page's or comment's raw
Markdown is contained: the save still issues its store call, with the
stored record's `Content.Formatted` equal to the empty string, and the
operation's outcome is exactly the store's outcome (no fault reaches the
caller). -/
theorem markdown_fault_contained_in_save
    (env : StoreEnv) (menv : MarkdownEnv) (wiki : String) (page : Page)
    (pageId pageRev : String) (comment : Comment) (cPageId commentId : String)
    (u : CurrentUserInfo)
    (hp : menv.faults page.content.raw = true)
    (hc : menv.faults comment.content.raw = true) :
    PageManager.Save env menv wiki page pageId pageRev u =
      (env.savePage (wikiDbString wiki) (page.withFormatted "") pageId pageRev u.user.userName,
       [StoreOp.savePage (wikiDbString wiki) (page.withFormatted "") pageId pageRev
         u.user.userName]) ∧
    PageManager.SaveComment env menv wiki cPageId comment commentId "" u =
      (env.saveComment (wikiDbString wiki) (comment.withFormatted "") commentId "" cPageId
         u.user.userName,
       [StoreOp.saveComment (wikiDbString wiki) (comment.withFormatted "") commentId "" cPageId
         u.user.userName]) := by
  constructor
  · unfold PageManager.Save
    rw [processMarkdown_eq_of_fault menv _ hp]
  · unfold PageManager.SaveComment
    rw [processMarkdown_eq_of_fault menv _ hc]
    simp

/-- A Markdown oracle on which every parse panics. -/
def faultingMdEnv : MarkdownEnv :=
  { parseFaults := fun _ => true, render := fun _ => none, sanitize := fun s => s }

/-- A store oracle whose writes all succeed with a fixed revision and whose
reads all miss. -/
def plainStoreEnv : StoreEnv :=
  { readPage := fun _ _ => .error .notFound
    readMultiplePages := fun _ _ => .ok []
    savePage := fun _ _ _ _ _ => .ok "1-abc"
    deletePage := fun _ _ _ => .ok "2-abc"
    readWikiRecord := fun _ => .error .notFound
    updateWikiRecord := fun _ _ _ => .ok "3-abc"
    getWikiBySlug := fun _ => .ok []
    readPageBySlug := fun _ _ => .error .notFound
    readComment := fun _ _ => .error .notFound
    saveComment := fun _ _ _ _ _ _ => .ok "1-def"
    deleteComment := fun _ _ _ => .ok "2-def" }

/-- A concrete page whose Markdown will fault under `faultingMdEnv`. -/
def pathologicalPage : Page :=
  { title := "T", lineage := [], owningPage := "p1"
    content := { raw := "[[[", formatted := "stale" } }

/-- A concrete comment whose Markdown will fault under `faultingMdEnv`. -/
def pathologicalComment : Comment :=
  { author := "alice", content := { raw := "((((", formatted := "stale" } }

/-- A concrete principal. -/
def aliceUser : CurrentUserInfo :=
  { auth := "basic", user := { userName := "alice", roles := [] } }

/-- Witness for C1 at a concrete faulting input. -/
theorem markdown_fault_contained_in_save_witness :
    faultingMdEnv.faults pathologicalPage.content.raw = true ∧
    PageManager.Save plainStoreEnv faultingMdEnv "w1" pathologicalPage "p1" "" aliceUser =
      (Except.ok "1-abc",
       [StoreOp.savePage "wiki_w1" (pathologicalPage.withFormatted "") "p1" "" "alice"]) := by
  refine ⟨rfl, ?_⟩
  have h := markdown_fault_contained_in_save plainStoreEnv faultingMdEnv "w1"
    pathologicalPage "p1" "" pathologicalComment "p1" "c1" aliceUser rfl rfl
  rw [h.1]
  rfl

/-- C9 counterexample: with a successful parse and a faulting `RenderHtml`,
`processMarkdown` completes (the recover path sends the empty string) but
`document.Free()` is never invoked — the parsed document is not released. -/
def renderFaultMdEnv : MarkdownEnv :=
  { parseFaults := fun _ => false, render := fun _ => none, sanitize := fun s => s }

/-- C9 is false as stated: this execution of the render step completes via
the fault-containment path without having invoked the document's release. -/
theorem render_fault_document_not_freed :
    processMarkdown renderFaultMdEnv "# title" =
      { output := "", freedDocument := false } := rfl

/-- C9 amended: the parsed document's release is invoked exactly when both
parsing and HTML rendering succeed; when rendering faults after a
successful parse, the recover path completes without freeing the
document. -/
theorem processMarkdown_frees_iff (menv : MarkdownEnv) (s : String) :
    (processMarkdown menv s).freedDocument = true ↔
      (menv.parseFaults s = false ∧ (menv.render s).isSome = true) := by
  unfold processMarkdown
  by_cases hp : menv.parseFaults s
  · simp [hp]
  · cases hr : menv.render s <;> simp [hp, hr]

/-- C4: the authorization gate approves exactly when the comment fetch
succeeds and the principal is the comment's author or holds the
wiki-scoped admin, main-namespace admin or master role; in particular any
fetch failure denies. -/
theorem allowedToUpdateComment_iff (env : StoreEnv) (wiki commentId : String)
    (u : CurrentUserInfo) :
    (PageManager.allowedToUpdateComment env wiki commentId u).1 = true ↔
      ∃ rev c, env.readComment (wikiDbString wiki) commentId = Except.ok (rev, c) ∧
        (c.author = u.user.userName ∨
         hasRole u.user.roles (AdminRole wiki) = true ∨
         hasRole u.user.roles (AdminRole MainDbName) = true ∨
         hasRole u.user.roles MasterRole = true) := by
  unfold PageManager.allowedToUpdateComment
  cases hrc : env.readComment (wikiDbString wiki) commentId with
  | error e => simp [hrc]
  | ok p =>
    obtain ⟨rev, c⟩ := p
    simp only [hrc, Except.ok.injEq, Prod.mk.injEq, decide_eq_true_eq, Bool.or_eq_true]
    constructor
    · intro h
      exact ⟨rev, c, ⟨rfl, rfl⟩, by tauto⟩
    · rintro ⟨r', c', ⟨hr, hc⟩, h⟩
      subst hc
      tauto

/-- C10: a comment create (`commentRev = ""`) never consults the
authorization gate: the call is exactly the store's `SaveComment`, its
trace holds no comment fetch, and no `Forbidden` error is introduced by
the manager. -/
theorem saveComment_create_no_gate (env : StoreEnv) (menv : MarkdownEnv)
    (wiki pageId : String) (comment : Comment) (commentId : String)
    (u : CurrentUserInfo) :
    PageManager.SaveComment env menv wiki pageId comment commentId "" u =
      (env.saveComment (wikiDbString wiki)
         (comment.withFormatted (processMarkdown menv comment.content.raw).output)
         commentId "" pageId u.user.userName,
       [StoreOp.saveComment (wikiDbString wiki)
         (comment.withFormatted (processMarkdown menv comment.content.raw).output)
         commentId "" pageId u.user.userName]) ∧
    (PageManager.SaveComment env menv wiki pageId comment commentId "" u).2.all
      (fun op => !op.isReadComment) = true := by
  constructor
  · unfold PageManager.SaveComment
    simp
  · unfold PageManager.SaveComment
    simp [StoreOp.isReadComment]

/-- C2: reading a page record whose `OwningPage` differs from the
requested `pageId` makes `Delete` fail with `BadRequest`, with no delete
and no write of any kind issued to the store, whatever revision token was
supplied. -/
theorem delete_historical_revision_badRequest (env : StoreEnv)
    (wiki pageId pageRev rev : String) (p : Page) (u : CurrentUserInfo)
    (hread : env.readPage (wikiDbString wiki) pageId = Except.ok (rev, p))
    (hown : p.owningPage ≠ pageId) :
    PageManager.Delete env wiki pageId pageRev u =
      (Except.error Err.badRequest, [StoreOp.readPage (wikiDbString wiki) pageId]) ∧
    (PageManager.Delete env wiki pageId pageRev u).2.all (fun op => !op.isWrite) = true := by
  have hmain : PageManager.Delete env wiki pageId pageRev u =
      (Except.error Err.badRequest, [StoreOp.readPage (wikiDbString wiki) pageId]) := by
    unfold PageManager.Delete
    simp [hread, hown]
  refine ⟨hmain, ?_⟩
  rw [hmain]
  rfl

/-- A store oracle holding a historical revision record: the record at id
`pHist` belongs to the live page `pLive`. -/
def historicalStoreEnv : StoreEnv :=
  { plainStoreEnv with
    readPage := fun _ _ =>
      .ok ("9-old",
        { title := "Old", lineage := [], owningPage := "pLive"
          content := { raw := "", formatted := "" } }) }

/-- Witness for C2 at a concrete historical record. -/
theorem delete_historical_revision_badRequest_witness :
    historicalStoreEnv.readPage "wiki_w1" "pHist" =
      Except.ok ("9-old",
        { title := "Old", lineage := [], owningPage := "pLive"
          content := { raw := "", formatted := "" } }) ∧
    PageManager.Delete historicalStoreEnv "w1" "pHist" "any-rev" aliceUser =
      (Except.error Err.badRequest, [StoreOp.readPage "wiki_w1" "pHist"]) := by
  refine ⟨rfl, ?_⟩
  exact (delete_historical_revision_badRequest historicalStoreEnv "w1" "pHist" "any-rev"
    "9-old" _ aliceUser rfl (by decide)).1

/-- C3: deleting the live page that is the wiki's home page first clears
`HomePageId` via an update; when that update fails the page delete is
never issued and the update's error is returned; when it succeeds the
delete follows it in the trace and its outcome is the store's delete
outcome, with no further wiki-record update (no rollback). -/
theorem delete_home_page_clears_pointer_first (env : StoreEnv)
    (wiki pageId pageRev rev wRev : String) (p : Page) (wr : WikiRecord)
    (u : CurrentUserInfo)
    (hread : env.readPage (wikiDbString wiki) pageId = Except.ok (rev, p))
    (hown : p.owningPage = pageId)
    (hwread : env.readWikiRecord wiki = Except.ok (wRev, wr))
    (hhome : wr.homePageId = pageId) :
    (∀ e, env.updateWikiRecord wiki wRev { homePageId := "" } = Except.error e →
      PageManager.Delete env wiki pageId pageRev u =
        (Except.error e,
         [StoreOp.readPage (wikiDbString wiki) pageId, StoreOp.readWikiRecord wiki,
          StoreOp.updateWikiRecord wiki wRev { homePageId := "" }])) ∧
    (∀ urev, env.updateWikiRecord wiki wRev { homePageId := "" } = Except.ok urev →
      PageManager.Delete env wiki pageId pageRev u =
        (env.deletePage (wikiDbString wiki) pageId pageRev,
         [StoreOp.readPage (wikiDbString wiki) pageId, StoreOp.readWikiRecord wiki,
          StoreOp.updateWikiRecord wiki wRev { homePageId := "" },
          StoreOp.deletePage (wikiDbString wiki) pageId pageRev])) := by
  constructor
  · intro e he
    unfold PageManager.Delete
    simp [hread, hown, hwread, hhome, he]
  · intro urev hu
    unfold PageManager.Delete
    simp [hread, hown, hwread, hhome, hu]

/-- A store oracle where `pHome` is the wiki's live home page. -/
def homePageStoreEnv : StoreEnv :=
  { plainStoreEnv with
    readPage := fun _ _ =>
      .ok ("4-live",
        { title := "Home", lineage := [], owningPage := "pHome"
          content := { raw := "", formatted := "" } })
    readWikiRecord := fun _ => .ok ("5-w", { homePageId := "pHome" }) }

/-- Witness for C3 at a concrete home page whose clearing update
succeeds: the update `{ homePageId := "" }` precedes the delete in the
trace and the delete's outcome is returned. -/
theorem delete_home_page_clears_pointer_first_witness :
    homePageStoreEnv.readWikiRecord "w1" = Except.ok ("5-w", { homePageId := "pHome" }) ∧
    PageManager.Delete homePageStoreEnv "w1" "pHome" "4-live" aliceUser =
      (Except.ok "2-abc",
       [StoreOp.readPage "wiki_w1" "pHome", StoreOp.readWikiRecord "w1",
        StoreOp.updateWikiRecord "w1" "5-w" { homePageId := "" },
        StoreOp.deletePage "wiki_w1" "pHome" "4-live"]) := by
  refine ⟨rfl, ?_⟩
  exact (delete_home_page_clears_pointer_first homePageStoreEnv "w1" "pHome" "4-live"
    "4-live" "5-w" _ _ aliceUser rfl rfl rfl rfl).2 "3-abc" rfl

/-- C6: a comment update (`commentRev ≠ ""`) whose principal is neither the
comment's author nor an admin/master role holder fails with the
`Forbidden` error and issues no write to the store. -/
theorem saveComment_update_unauthorized_forbidden (env : StoreEnv) (menv : MarkdownEnv)
    (wiki pageId : String) (comment : Comment) (commentId commentRev rev : String)
    (c : Comment) (u : CurrentUserInfo)
    (hrev : commentRev ≠ "")
    (hrc : env.readComment (wikiDbString wiki) commentId = Except.ok (rev, c))
    (hauthor : c.author ≠ u.user.userName)
    (hw : hasRole u.user.roles (AdminRole wiki) = false)
    (hm : hasRole u.user.roles (AdminRole MainDbName) = false)
    (hmr : hasRole u.user.roles MasterRole = false) :
    PageManager.SaveComment env menv wiki pageId comment commentId commentRev u =
      (Except.error Err.notAuthorized,
       [StoreOp.readComment (wikiDbString wiki) commentId]) ∧
    (PageManager.SaveComment env menv wiki pageId comment commentId commentRev u).2.all
      (fun op => !op.isWrite) = true := by
  have hgate : PageManager.allowedToUpdateComment env wiki commentId u =
      (false, [StoreOp.readComment (wikiDbString wiki) commentId]) := by
    unfold PageManager.allowedToUpdateComment
    simp [hrc, hauthor, hw, hm, hmr]
  have hmain : PageManager.SaveComment env menv wiki pageId comment commentId commentRev u =
      (Except.error Err.notAuthorized,
       [StoreOp.readComment (wikiDbString wiki) commentId]) := by
    unfold PageManager.SaveComment
    simp [hrev, hgate]
  refine ⟨hmain, ?_⟩
  rw [hmain]
  rfl

/-- A store oracle holding a comment authored by `bob`. -/
def bobCommentStoreEnv : StoreEnv :=
  { plainStoreEnv with
    readComment := fun _ _ =>
      .ok ("7-c", { author := "bob", content := { raw := "hi", formatted := "<p>hi</p>" } }) }

/-- Witness for C6: `alice` (no roles) cannot update `bob`'s comment. -/
theorem saveComment_update_unauthorized_forbidden_witness :
    ("7-c" : String) ≠ "" ∧
    PageManager.SaveComment bobCommentStoreEnv faultingMdEnv "w1" "p1"
      pathologicalComment "c1" "7-c" aliceUser =
      (Except.error Err.notAuthorized, [StoreOp.readComment "wiki_w1" "c1"]) := by
  refine ⟨by decide, ?_⟩
  exact (saveComment_update_unauthorized_forbidden bobCommentStoreEnv faultingMdEnv "w1" "p1"
    pathologicalComment "c1" "7-c" "7-c" _ aliceUser (by decide) rfl (by decide)
    rfl rfl rfl).1

/-- C7: when the global slug view yields no row for `wikiSlug`,
`ReadBySlug` fails with `NotFound` and its trace holds no page-store
lookup; when a row is found, the page slug is resolved inside that row's
wiki and the page store's result — success or failure — is returned
verbatim. -/
theorem readBySlug_resolution (env : StoreEnv) (wikiSlug pageSlug : String)
    (u : CurrentUserInfo) :
    (env.getWikiBySlug wikiSlug = Except.ok [] →
      PageManager.ReadBySlug env wikiSlug pageSlug u =
        (("", Except.error Err.notFound),
         [StoreOp.getView MainDbName "wiki_query" "getWikiBySlug" wikiSlug])) ∧
    (∀ row rest, env.getWikiBySlug wikiSlug = Except.ok (row :: rest) →
      PageManager.ReadBySlug env wikiSlug pageSlug u =
        ((row.id, env.readPageBySlug (wikiDbString row.id) pageSlug),
         [StoreOp.getView MainDbName "wiki_query" "getWikiBySlug" wikiSlug,
          StoreOp.readPageBySlug (wikiDbString row.id) pageSlug])) := by
  constructor
  · intro h
    unfold PageManager.ReadBySlug
    simp [h]
  · intro row rest h
    unfold PageManager.ReadBySlug
    simp [h]

/-- Witness for C7: no wiki has slug `acme`, the call is `NotFound` and no
page-store lookup appears in the trace. -/
theorem readBySlug_resolution_witness :
    plainStoreEnv.getWikiBySlug "acme" = Except.ok [] ∧
    PageManager.ReadBySlug plainStoreEnv "acme" "intro" aliceUser =
      (("", Except.error Err.notFound),
       [StoreOp.getView MainDbName "wiki_query" "getWikiBySlug" "acme"]) := by
  refine ⟨rfl, ?_⟩
  exact (readBySlug_resolution plainStoreEnv "acme" "intro" aliceUser).1 rfl

/-- The spec's parent rule, in the spec's own words: the second-to-last
entry of the row's own lineage — the entry one position from the end — or
the empty string when the lineage has fewer than two entries. -/
def specParentRule (lineage : List String) : String :=
  lineage.reverse.getD 1 ""

/-- The loop's parent computation agrees with the spec's
second-to-last-entry rule. -/
theorem parentEntry_eq_specParentRule (l : List String) :
    parentEntry l = specParentRule l := by
  unfold parentEntry specParentRule
  by_cases h : 2 ≤ l.length
  · rw [if_pos h, List.getD_eq_getElem?_getD, List.getD_eq_getElem?_getD,
        List.getElem?_reverse (by omega)]
    have : l.length - 1 - 1 = l.length - 2 := by omega
    rw [this]
  · rw [if_neg h, List.getD_eq_getElem?_getD,
        List.getElem?_eq_none (by simp; omega)]
    rfl

/-- A faithful multi-get assigning each ancestor id its stored document. -/
def rowsOf (docOf : String → Page) (ids : List String) : List MultiPageRow :=
  ids.map fun i => { id := i, doc := docOf i }

/-- The documents of one page whose single ancestor is `a`. -/
def singleAncestorPage : Page :=
  { title := "Child", lineage := ["a"], owningPage := "p"
    content := { raw := "", formatted := "" } }

/-- Stored documents for the single-ancestor wiki: `p` is the child, every
other id resolves to the root page `a`. -/
def singleAncestorDocOf : String → Page :=
  fun i =>
    if i = "p" then singleAncestorPage
    else { title := "Root", lineage := [], owningPage := i
           content := { raw := "", formatted := "" } }

/-- A store oracle over the single-ancestor wiki with a faithful
multi-get. -/
def singleAncestorStoreEnv : StoreEnv :=
  { plainStoreEnv with
    readPage := fun _ pid => .ok ("1-a", singleAncestorDocOf pid)
    readMultiplePages := fun _ ids => .ok (rowsOf singleAncestorDocOf ids) }

/-- C5 is false as stated: for the page `p` with `Lineage = ["a"]` the
breadcrumb sequence has length 1, its lineage length — not lineage length
plus one.  (The code only bulk-fetches when `len(Lineage) > 1`, and even
then it fetches `Lineage[0:len-1]`, so the lineage's last entry never
contributes a row of its own.) -/
theorem breadcrumbs_length_counterexample :
    (PageManager.GetBreadcrumbs singleAncestorStoreEnv "w1" "p" aliceUser).1 =
      Except.ok [{ name := "Child", pageId := "p", wikiId := "w1", parent := "" }] ∧
    [({ name := "Child", pageId := "p", wikiId := "w1", parent := "" } : Breadcrumb)].length ≠
      singleAncestorPage.lineage.length + 1 := by
  exact ⟨rfl, by decide⟩

/-- C5 amended: for every page with non-empty lineage (under the spec's
invariant that a page's lineage excludes its own id, against a store whose
multi-get returns one row per requested id), `GetBreadcrumbs` succeeds
with a sequence of length `len(Lineage)` — not `len(Lineage) + 1` — that
ends with the page's own breadcrumb and whose ancestor entries never carry
the page's own id. -/
theorem breadcrumbs_shape (env : StoreEnv) (wiki pageId : String)
    (u : CurrentUserInfo) (rev : String) (p : Page) (docOf : String → Page)
    (hread : env.readPage (wikiDbString wiki) pageId = Except.ok (rev, p))
    (hne : p.lineage ≠ [])
    (hself : pageId ∉ p.lineage)
    (hmulti : ∀ ids, env.readMultiplePages (wikiDbString wiki) ids =
      Except.ok (rowsOf docOf ids)) :
    ∃ crumbs, (PageManager.GetBreadcrumbs env wiki pageId u).1 = Except.ok crumbs ∧
      crumbs.length = p.lineage.length ∧
      crumbs.getLast? = some (breadcrumbOfRow wiki { id := pageId, doc := p }) ∧
      ∀ c ∈ crumbs.dropLast, c.pageId ≠ pageId := by
  have hlen1 : 1 ≤ p.lineage.length := by
    cases hl : p.lineage with
    | nil => exact absurd hl hne
    | cons a t => simp [hl]
  simp only [PageManager.GetBreadcrumbs, PageManager.Read, hread]
  by_cases hgt : p.lineage.length > 1
  · simp only [hgt, if_pos, hmulti]
    refine ⟨_, rfl, ?_, ?_, ?_⟩
    · simp [rowsOf, List.length_take]
      omega
    · rw [List.map_append]
      simp [List.getLast?_concat]
    · intro c hc
      rw [List.map_append, List.map_singleton, List.dropLast_concat] at hc
      simp only [rowsOf, List.map_map, List.mem_map] at hc
      obtain ⟨i, hi, hci⟩ := hc
      have hmem : i ∈ p.lineage := List.take_subset _ _ hi
      intro hcp
      apply hself
      have hcpid : c.pageId = i := by
        rw [← hci]
        rfl
      have hip : i = pageId := by rw [← hcpid, hcp]
      rwa [hip] at hmem
  · simp only [hgt, ite_false]
    refine ⟨_, rfl, ?_, ?_, ?_⟩
    · simp
      omega
    · simp
    · intro c hc
      simp at hc

/-- Stored documents for the two-ancestor wiki: the leaf `p` sits under
`a` then `b`. -/
def deepDocOf : String → Page :=
  fun i =>
    if i = "p" then
      { title := "Leaf", lineage := ["a", "b"], owningPage := "p"
        content := { raw := "", formatted := "" } }
    else if i = "b" then
      { title := "Mid", lineage := ["a"], owningPage := "b"
        content := { raw := "", formatted := "" } }
    else
      { title := "Top", lineage := [], owningPage := i
        content := { raw := "", formatted := "" } }

/-- A store oracle over the two-ancestor wiki with a faithful multi-get. -/
def deepStoreEnv : StoreEnv :=
  { plainStoreEnv with
    readPage := fun _ pid => .ok ("1-p", deepDocOf pid)
    readMultiplePages := fun _ ids => .ok (rowsOf deepDocOf ids) }

/-- Witness for the amended C5 at the concrete leaf page `p` with
`Lineage = ["a", "b"]`. -/
theorem breadcrumbs_shape_witness :
    "p" ∉ (deepDocOf "p").lineage ∧
    (∃ crumbs,
      (PageManager.GetBreadcrumbs deepStoreEnv "w1" "p" aliceUser).1 = Except.ok crumbs ∧
      crumbs.length = (deepDocOf "p").lineage.length ∧
      crumbs.getLast? = some (breadcrumbOfRow "w1" { id := "p", doc := deepDocOf "p" }) ∧
      ∀ c ∈ crumbs.dropLast, c.pageId ≠ "p") := by
  refine ⟨by decide, ?_⟩
  exact breadcrumbs_shape deepStoreEnv "w1" "p" aliceUser "1-p" (deepDocOf "p") deepDocOf
    rfl (by decide) (by decide) (fun ids => rfl)

/-- C8: each returned breadcrumb's `Parent` is the second-to-last entry of
that row's own lineage (empty when the lineage has fewer than two
entries), and a page with empty lineage yields exactly its own single
breadcrumb with an empty `Parent`. -/
theorem breadcrumbs_parent_rule (env : StoreEnv) (wiki pageId : String)
    (u : CurrentUserInfo) (rev : String) (p : Page) (docOf : String → Page)
    (hread : env.readPage (wikiDbString wiki) pageId = Except.ok (rev, p))
    (hdoc : docOf pageId = p)
    (hmulti : ∀ ids, env.readMultiplePages (wikiDbString wiki) ids =
      Except.ok (rowsOf docOf ids)) :
    (p.lineage = [] →
      (PageManager.GetBreadcrumbs env wiki pageId u).1 =
        Except.ok [{ name := p.title, pageId := pageId, wikiId := wiki, parent := "" }]) ∧
    (∃ crumbs, (PageManager.GetBreadcrumbs env wiki pageId u).1 = Except.ok crumbs ∧
      ∀ c ∈ crumbs, c.parent = specParentRule (docOf c.pageId).lineage) := by
  constructor
  · intro hempty
    simp only [PageManager.GetBreadcrumbs, PageManager.Read, hread]
    simp [hempty, breadcrumbOfRow, parentEntry]
  · simp only [PageManager.GetBreadcrumbs, PageManager.Read, hread]
    by_cases hgt : p.lineage.length > 1
    · simp only [hgt, if_pos, hmulti]
      refine ⟨_, rfl, ?_⟩
      intro c hc
      rw [List.map_append, List.map_singleton] at hc
      rcases List.mem_append.mp hc with hc | hc
      · simp only [rowsOf, List.map_map, List.mem_map] at hc
        obtain ⟨i, _, hci⟩ := hc
        subst hci
        simp [breadcrumbOfRow, parentEntry_eq_specParentRule]
      · rw [List.mem_singleton] at hc
        subst hc
        simp [breadcrumbOfRow, hdoc, parentEntry_eq_specParentRule]
    · simp only [hgt, ite_false]
      refine ⟨_, rfl, ?_⟩
      intro c hc
      simp only [List.map_singleton, List.mem_singleton] at hc
      subst hc
      simp [breadcrumbOfRow, hdoc, parentEntry_eq_specParentRule]

/-- Witness for C8 at the two-ancestor wiki: the crumbs of
the leaf `p` exist and satisfy the parent rule. -/
theorem breadcrumbs_parent_rule_witness :
    (deepDocOf "p").lineage ≠ [] ∧
    (∃ crumbs,
      (PageManager.GetBreadcrumbs deepStoreEnv "w1" "p" aliceUser).1 = Except.ok crumbs ∧
      ∀ c ∈ crumbs, c.parent = specParentRule (deepDocOf c.pageId).lineage) := by
  refine ⟨by decide, ?_⟩
  exact (breadcrumbs_parent_rule deepStoreEnv "w1" "p" aliceUser "1-p" (deepDocOf "p")
    deepDocOf rfl rfl (fun ids => rfl)).2

end Wikifeat
